import Mathlib

/-!
Verification development for the trip-visualization repository.

The TypeScript source is shallowly embedded:
* JavaScript `Date` values are their millisecond-since-epoch timestamps (`ℤ`);
  a JS `Date` carries exactly integer-millisecond precision.
* JavaScript numbers used as geographic coordinates appear only in copies and
  order comparisons (`min`/`max`/`≤`), never in rounding arithmetic, so they
  are embedded as `ℚ`.
* `localStorage` slots are embedded per key: the trips key holds an optional
  stored text, the current-trip-id key holds an optional plain string.
* Fallible JS code (`throw`/`try`/`catch`) is embedded with `Except`/`Option`.
-/

namespace TripVis

/-- Location record from `src/unnamed/part_000` (types): latitude, longitude,
human-readable address. -/
structure Location where
  lat : ℚ
  lng : ℚ
  address : String
deriving DecidableEq, Repr

/-- Activity category enum from the types file. -/
inductive ActivityType where
  | restaurant
  | tour
  | attraction
  | other
deriving DecidableEq, Repr

/-- Fields shared by all itinerary item variants (`BaseItem` in the types
file): id, owning trip id, primary start timestamp, optional end timestamp,
optional notes.  The discriminant `type` tag is carried by the constructor of
`ItineraryItem` below. -/
structure BaseItem where
  id : String
  tripId : String
  startDate : ℤ
  endDate : Option ℤ
  notes : Option String
deriving DecidableEq, Repr

/-- The discriminated union `ItineraryItem = Flight | Accommodation | Activity`
from the types file, embedded as a closed sum.  Field layout follows the three
TypeScript interfaces. -/
inductive ItineraryItem where
  | flight (base : BaseItem) (origin destination : Location)
      (departureTime arrivalTime : ℤ)
      (airline flightNumber confirmationNumber : Option String)
  | accommodation (base : BaseItem) (name : String) (location : Location)
      (checkIn checkOut : ℤ) (bookingReference : Option String)
  | activity (base : BaseItem) (name : String) (location : Location)
      (activityType : ActivityType) (time : Option String)
deriving DecidableEq, Repr

/-- Shared base-field projection (every variant extends `BaseItem`). -/
def ItineraryItem.base : ItineraryItem → BaseItem
  | .flight b _ _ _ _ _ _ _ => b
  | .accommodation b _ _ _ _ _ => b
  | .activity b _ _ _ _ => b

/-- The `item.startDate` access used throughout the source. -/
def ItineraryItem.startDate (i : ItineraryItem) : ℤ := i.base.startDate

/-- Discriminant test `item.type === 'flight'`. -/
def isFlight : ItineraryItem → Bool
  | .flight _ _ _ _ _ _ _ _ => true
  | _ => false

/-- Discriminant test `item.type === 'accommodation'`. -/
def isAccommodation : ItineraryItem → Bool
  | .accommodation _ _ _ _ _ _ => true
  | _ => false

/-- Discriminant test `item.type === 'activity'`. -/
def isActivity : ItineraryItem → Bool
  | .activity _ _ _ _ _ => true
  | _ => false

/-- Trip record from the types file. -/
structure Trip where
  id : String
  name : String
  startDate : ℤ
  endDate : ℤ
  items : List ItineraryItem
  createdAt : ℤ
  updatedAt : ℤ
deriving DecidableEq, Repr

/-! ## Derivation functions (`src/unnamed/part_000`, itinerary helpers) -/

/-- Locations one item pushes in `getAllLocations`: a flight pushes origin then
destination, an accommodation or activity pushes its single location. -/
def itemLocations : ItineraryItem → List Location
  | .flight _ origin destination _ _ _ _ _ => [origin, destination]
  | .accommodation _ _ location _ _ _ => [location]
  | .activity _ _ location _ _ => [location]

/-- Embeds `getAllLocations`: a `forEach` loop pushing each item's
location(s) onto an accumulator array, in input order. -/
def getAllLocations (items : List ItineraryItem) : List Location :=
  items.foldl (fun locations item => locations ++ itemLocations item) []

/-- Environment model of Leaflet's `LatLngBounds`: a latitude/longitude
rectangle kept as its four extreme coordinates. -/
structure LatLngBounds where
  minLat : ℚ
  maxLat : ℚ
  minLng : ℚ
  maxLng : ℚ
deriving DecidableEq, Repr

/-- Leaflet `bounds.extend([lat, lng])`: grow the rectangle just enough to
include the point. -/
def LatLngBounds.extend (b : LatLngBounds) (l : Location) : LatLngBounds :=
  ⟨min b.minLat l.lat, max b.maxLat l.lat, min b.minLng l.lng, max b.maxLng l.lng⟩

/-- Leaflet `new LatLngBounds(corner1, corner2)`: the smallest rectangle
containing the two corners. -/
def LatLngBounds.ofCorners (c1 c2 : Location) : LatLngBounds :=
  ⟨min c1.lat c2.lat, max c1.lat c2.lat, min c1.lng c2.lng, max c1.lng c2.lng⟩

/-- A point lies inside a rectangle. -/
def LatLngBounds.containsLoc (b : LatLngBounds) (l : Location) : Prop :=
  b.minLat ≤ l.lat ∧ l.lat ≤ b.maxLat ∧ b.minLng ≤ l.lng ∧ l.lng ≤ b.maxLng

/-- Rectangle `b` lies inside rectangle `c`. -/
def LatLngBounds.within (b c : LatLngBounds) : Prop :=
  c.minLat ≤ b.minLat ∧ b.maxLat ≤ c.maxLat ∧ c.minLng ≤ b.minLng ∧ b.maxLng ≤ c.maxLng

/-- Embeds `calculateTripBounds`: `undefined` on no locations, else seed a
degenerate box from the first location and `extend` with every location
(the source's `forEach` re-extends the seed location, which is harmless). -/
def calculateTripBounds (items : List ItineraryItem) : Option LatLngBounds :=
  match getAllLocations items with
  | [] => none
  | l0 :: rest =>
      some ((l0 :: rest).foldl LatLngBounds.extend (LatLngBounds.ofCorners l0 l0))

/-- Locations one item pushes in `getRouteLocations`: flights push origin then
destination, activities push their location, accommodations push nothing
("Accommodations are excluded from route but shown as markers"). -/
def routeContrib : ItineraryItem → List Location
  | .flight _ origin destination _ _ _ _ _ => [origin, destination]
  | .accommodation _ _ _ _ _ _ => []
  | .activity _ _ location _ _ => [location]

/-- JS comparator `(a, b) => a.startDate.getTime() - b.startDate.getTime()`
expressed as the boolean order it induces. -/
def leStart (a b : ItineraryItem) : Bool := decide (a.startDate ≤ b.startDate)

/-- Embeds `[...items].sort(comparator)`.  `Array.prototype.sort` with a
consistent comparator is specified (ES2019) to be a stable sort, which
`List.mergeSort` is. -/
def jsSortByStartDate (items : List ItineraryItem) : List ItineraryItem :=
  items.mergeSort leStart

/-- Embeds `getRouteLocations`: stable-sort by start date, then a `forEach`
push loop over `routeContrib`. -/
def getRouteLocations (items : List ItineraryItem) : List Location :=
  (jsSortByStartDate items).foldl (fun route item => route ++ routeContrib item) []

/-! ## Day grouping (modelled from the spec) -/

/-- Modelled from the spec: truncation of a millisecond timestamp to its
calendar day.  The repository's `groupItemsByDay`/`groupByDay` helper is named
in the README but its code is not under `src/`; the spec says "truncate each
item's primary start timestamp to its calendar day (date-only, original
timezone)".  The original timezone is modelled as a fixed UTC offset `tz`
in milliseconds; a day is 86400000 ms, truncation is floor division. -/
def dayOf (tz : ℤ) (t : ℤ) : ℤ := (t + tz).fdiv 86400000

/-- Comparator for sorting the ordered day keys ascending. -/
def leDay (a b : ℤ) : Bool := decide (a ≤ b)

/-- Modelled from the spec: `groupByDay(items)` — the repository's day-grouping
helper is declared in the README but its code is not under `src/`.  Following
the spec's words: truncate each item's primary start timestamp to its calendar
day, group, sort the resulting distinct days ascending; within each day, sort
items by start time ascending with a stable tiebreak on original insertion
order (filtering preserves insertion order and the sort is stable). -/
def groupByDay (tz : ℤ) (items : List ItineraryItem) : List (ℤ × List ItineraryItem) :=
  let days := ((items.map (fun i => dayOf tz i.startDate)).dedup).mergeSort leDay
  days.map (fun d =>
    (d, (items.filter (fun i => decide (dayOf tz i.startDate = d))).mergeSort leStart))

/-! ## Persistence codec (`src/src/utils/geocoding.ts`, storage section)

`JSON.stringify`/`JSON.parse` are mutually inverse between JSON texts and the
trees they denote, so the serialized text is embedded by its parse tree
(`JValue`); a stored text that `JSON.parse` rejects is embedded as
`StoredText.malformed`. -/

/-- Parse tree of a JSON text / a JSON-shaped JS value. -/
inductive JValue where
  | null
  | bool (b : Bool)
  | num (q : ℚ)
  | str (s : String)
  | arr (elems : List JValue)
  | obj (fields : List (String × JValue))

/-- JS property lookup on a parsed JSON object (`JSON.parse` yields objects
with unique keys, so first-match lookup is exact). -/
def jlookup : List (String × JValue) → String → Option JValue
  | [], _ => none
  | (k, v) :: rest, key => if key = k then some v else jlookup rest key

/-- Decimal digit character. -/
def digitChar (d : ℕ) : Char := Char.ofNat (48 + d)

/-- Numeric value of a decimal digit character. -/
def charDigit (c : Char) : ℕ := c.toNat - 48

/-- Big-endian decimal rendering of a natural number ("" for 0). -/
def encodeNatStr (n : ℕ) : String := String.mk (((Nat.digits 10 n).map digitChar).reverse)

/-- Inverse of `encodeNatStr`. -/
def decodeNatStr (s : String) : ℕ := Nat.ofDigits 10 (s.data.reverse.map charDigit)

/-- Environment model of `Date.prototype.toISOString`.  The host pair
`toISOString` / `new Date(isoText)` is an exact bijection between a `Date`'s
millisecond timestamp and its ISO-8601 rendering, and the rendering is never
the empty (falsy) string; only those properties (not the calendar layout of
the text) are used by the codec, so the timestamp's textual rendering is
modelled by its explicitly signed decimal millisecond value. -/
def dateToISOString (t : ℤ) : String :=
  (if t < 0 then "-" else "+") ++ encodeNatStr t.natAbs

/-- Environment model of `new Date(text).getTime()` on a rendering produced by
`dateToISOString` (exact inverse at millisecond precision). -/
def dateFromString (s : String) : ℤ :=
  if s.data.head? = some (Char.ofNat 45) then
    -(decodeNatStr (String.mk s.data.tail) : ℤ)
  else
    (decodeNatStr (String.mk s.data.tail) : ℤ)

/-- Field list entry for an optional (possibly `undefined`) property:
`JSON.stringify` omits properties whose value is `undefined`. -/
def optField (key : String) (v : Option JValue) : List (String × JValue) :=
  match v with
  | none => []
  | some j => [(key, j)]

/-- Serialized form of an optional string property. -/
def optStrField (key : String) (v : Option String) : List (String × JValue) :=
  optField key (v.map JValue.str)

/-- Serialized form of a `Date` property (the replacer in `serializeTrips`
turns every `Date` into its ISO string; `Date.prototype.toJSON` produces the
same text). -/
def encodeDate (t : ℤ) : JValue := .str (dateToISOString t)

/-- Serialized form of a `Location` record. -/
def encodeLocation (l : Location) : JValue :=
  .obj [("lat", .num l.lat), ("lng", .num l.lng), ("address", .str l.address)]

/-- Serialized form of the activity category enum. -/
def encodeActivityType : ActivityType → JValue
  | .restaurant => .str "restaurant"
  | .tour => .str "tour"
  | .attraction => .str "attraction"
  | .other => .str "other"

/-- Shared base-item properties as serialized by `JSON.stringify`. -/
def encodeBase (tag : String) (b : BaseItem) : List (String × JValue) :=
  [("id", .str b.id), ("type", .str tag), ("tripId", .str b.tripId),
   ("startDate", encodeDate b.startDate)] ++
  optField "endDate" (b.endDate.map encodeDate) ++
  optStrField "notes" b.notes

/-- Serialized form of one itinerary item. -/
def encodeItem : ItineraryItem → JValue
  | .flight b origin destination departureTime arrivalTime airline flightNumber confirmationNumber =>
      .obj (encodeBase "flight" b ++
        [("origin", encodeLocation origin), ("destination", encodeLocation destination),
         ("departureTime", encodeDate departureTime), ("arrivalTime", encodeDate arrivalTime)] ++
        optStrField "airline" airline ++
        optStrField "flightNumber" flightNumber ++
        optStrField "confirmationNumber" confirmationNumber)
  | .accommodation b name location checkIn checkOut bookingReference =>
      .obj (encodeBase "accommodation" b ++
        [("name", .str name), ("location", encodeLocation location),
         ("checkIn", encodeDate checkIn), ("checkOut", encodeDate checkOut)] ++
        optStrField "bookingReference" bookingReference)
  | .activity b name location activityType time =>
      .obj (encodeBase "activity" b ++
        [("name", .str name), ("location", encodeLocation location),
         ("activityType", encodeActivityType activityType)] ++
        optStrField "time" time)

/-- Serialized form of one trip. -/
def encodeTrip (t : Trip) : JValue :=
  .obj [("id", .str t.id), ("name", .str t.name),
        ("startDate", encodeDate t.startDate), ("endDate", encodeDate t.endDate),
        ("items", .arr (t.items.map encodeItem)),
        ("createdAt", encodeDate t.createdAt), ("updatedAt", encodeDate t.updatedAt)]

/-- Parse tree of the text produced by `serializeTrips`: the trips array with
every `Date` rendered as its ISO string.  (Inside `JSON.stringify`,
`Date.prototype.toJSON` fires before the replacer, so the replacer's
`instanceof Date` branch never sees a live `Date`; both paths produce the
same ISO text.) -/
def encodeTrips (trips : List Trip) : JValue := .arr (trips.map encodeTrip)

/-- A text sitting in the store, embedded by its `JSON.parse` outcome:
`json j` is a text that parses to the tree `j`, `malformed s` is a text
(carried literally) that `JSON.parse` throws on. -/
inductive StoredText where
  | json (j : JValue)
  | malformed (s : String)

/-- Embeds `serializeTrips`: the produced text always parses back to
`encodeTrips trips`. -/
def serializeTrips (trips : List Trip) : StoredText := .json (encodeTrips trips)

/-! ### Decoding (`deserializeTrips`)

The JS decoder rebuilds each record by spreading the parsed object and
re-wrapping its date fields; on values outside the codec's image it either
throws (e.g. `.map` on a non-array) or silently builds ill-typed records
(e.g. `new Date(undefined)` is an Invalid Date).  The typed embedding
conflates both failure modes into `Except.error`; no claim distinguishes an
Invalid-Date-carrying record from a thrown decode.  On the image of
`encodeTrips` the embedding agrees with the source exactly. -/

/-- Read a JS property expected to hold a string. -/
def asStr : Option JValue → Except String String
  | some (.str s) => .ok s
  | _ => .error "expected a string property"

/-- Read a JS property expected to hold a number. -/
def asNum : Option JValue → Except String ℚ
  | some (.num q) => .ok q
  | _ => .error "expected a numeric property"

/-- Embeds `new Date(value)` on a serialized date property. -/
def asDate : Option JValue → Except String ℤ
  | some (.str s) => .ok (dateFromString s)
  | _ => .error "expected a date string property"

/-- Embeds `value ? new Date(value) : undefined` (the `endDate` revival):
JS falsy values (absent, `null`, `false`, `0`, `""`) select `undefined`. -/
def asOptDate : Option JValue → Except String (Option ℤ)
  | none => .ok none
  | some .null => .ok none
  | some (.bool false) => .ok none
  | some (.num 0) => .ok none
  | some (.str s) => .ok (if s = "" then none else some (dateFromString s))
  | _ => .error "expected an optional date string property"

/-- Read an optional string property (the spread copies it unchanged). -/
def asOptStr : Option JValue → Except String (Option String)
  | none => .ok none
  | some (.str s) => .ok (some s)
  | _ => .error "expected an optional string property"

/-- Rebuild a `Location` (the JS spread keeps the parsed
`lat`/`lng`/`address` object unchanged). -/
def decodeLocation : Option JValue → Except String Location
  | some (.obj fields) => do
      let lat ← asNum (jlookup fields "lat")
      let lng ← asNum (jlookup fields "lng")
      let address ← asStr (jlookup fields "address")
      pure ⟨lat, lng, address⟩
  | _ => .error "expected a location object"

/-- Rebuild the activity category from its serialized string. -/
def decodeActivityType (v : Option JValue) : Except String ActivityType := do
  let s ← asStr v
  if s = "restaurant" then pure .restaurant
  else if s = "tour" then pure .tour
  else if s = "attraction" then pure .attraction
  else if s = "other" then pure .other
  else .error "unknown activity type"

/-- Embeds the per-item arm of `deserializeTrips`: build `baseItem` with the
shared date fields revived, then dispatch on the discriminant tag — `'flight'`
additionally revives `departureTime`/`arrivalTime`, `'accommodation'` revives
`checkIn`/`checkOut`, and the remaining branch (`'activity'`) keeps the spread
fields (read here at their expected types). -/
def decodeItem : JValue → Except String ItineraryItem
  | .obj fields => do
      let id ← asStr (jlookup fields "id")
      let tag ← asStr (jlookup fields "type")
      let tripId ← asStr (jlookup fields "tripId")
      let startDate ← asDate (jlookup fields "startDate")
      let endDate ← asOptDate (jlookup fields "endDate")
      let notes ← asOptStr (jlookup fields "notes")
      let base : BaseItem := ⟨id, tripId, startDate, endDate, notes⟩
      if tag = "flight" then do
        let origin ← decodeLocation (jlookup fields "origin")
        let destination ← decodeLocation (jlookup fields "destination")
        let departureTime ← asDate (jlookup fields "departureTime")
        let arrivalTime ← asDate (jlookup fields "arrivalTime")
        let airline ← asOptStr (jlookup fields "airline")
        let flightNumber ← asOptStr (jlookup fields "flightNumber")
        let confirmationNumber ← asOptStr (jlookup fields "confirmationNumber")
        pure (.flight base origin destination departureTime arrivalTime
          airline flightNumber confirmationNumber)
      else if tag = "accommodation" then do
        let name ← asStr (jlookup fields "name")
        let location ← decodeLocation (jlookup fields "location")
        let checkIn ← asDate (jlookup fields "checkIn")
        let checkOut ← asDate (jlookup fields "checkOut")
        let bookingReference ← asOptStr (jlookup fields "bookingReference")
        pure (.accommodation base name location checkIn checkOut bookingReference)
      else if tag = "activity" then do
        let name ← asStr (jlookup fields "name")
        let location ← decodeLocation (jlookup fields "location")
        let activityType ← decodeActivityType (jlookup fields "activityType")
        let time ← asOptStr (jlookup fields "time")
        pure (.activity base name location activityType time)
      else .error "unknown item type"
  | _ => .error "item is not an object"

/-- Embeds the per-trip arm of `deserializeTrips`: spread the parsed trip,
revive the four trip-level dates, map the item decoder over `trip.items`. -/
def decodeTrip : JValue → Except String Trip
  | .obj fields => do
      let id ← asStr (jlookup fields "id")
      let name ← asStr (jlookup fields "name")
      let startDate ← asDate (jlookup fields "startDate")
      let endDate ← asDate (jlookup fields "endDate")
      let items ← match jlookup fields "items" with
        | some (.arr elems) => elems.mapM decodeItem
        | _ => .error "trip items is not an array"
      let createdAt ← asDate (jlookup fields "createdAt")
      let updatedAt ← asDate (jlookup fields "updatedAt")
      pure ⟨id, name, startDate, endDate, items, createdAt, updatedAt⟩
  | _ => .error "trip is not an object"

/-- Embeds `deserializeTrips` applied to the parse tree of the stored text. -/
def deserializeTrips : JValue → Except String (List Trip)
  | .arr trips => trips.mapM decodeTrip
  | _ => .error "parsed data is not an array"

/-! ### Storage operations -/

/-- Result of `saveTrips`: the trips slot after the call, and whether the
failure path (the `catch` block's `console.error`/quota alert) ran. -/
structure SaveResult where
  slot : Option StoredText
  reported : Bool

/-- Embeds `saveTrips`.  `localStorage.setItem` is atomic: it either stores
the whole value or throws (e.g. `QuotaExceededError`) leaving the store
unchanged; whether it fits is environment-determined, modelled by the
`canWrite` capacity predicate.  The source serializes first, performs a single
`setItem`, and catches any failure, reporting it instead of rethrowing. -/
def saveTrips (canWrite : StoredText → Bool) (slot : Option StoredText)
    (trips : List Trip) : SaveResult :=
  let serialized := serializeTrips trips
  if canWrite serialized then ⟨some serialized, false⟩ else ⟨slot, true⟩

/-- Embeds `loadTrips` over the trips slot (`localStorage.getItem` returns
the stored text or `null`).  `if (!data) return []` handles the absent (and
empty-text) case; `JSON.parse` throwing on a malformed text, or
`deserializeTrips` throwing, is caught and degrades to `[]`.  A text that
parses (`StoredText.json`) is never the empty string, since `""` is not valid
JSON. -/
def loadTrips (slot : Option StoredText) : List Trip :=
  match slot with
  | none => []
  | some (.malformed _) => []
  | some (.json j) =>
      match deserializeTrips j with
      | .ok trips => trips
      | .error _ => []

/-- JS truthiness of a `string | null` value: `null` and `""` are falsy. -/
def strTruthy : Option String → Bool
  | none => false
  | some s => !(s = "")

/-- Embeds `saveCurrentTripId`: `if (tripId)` stores the id, the `else`
branch removes the key.  Returns the current-trip-id slot after the call
(writes assumed within capacity; a failure is caught and only logged). -/
def saveCurrentTripId (tripId : Option String) : Option String :=
  if strTruthy tripId then tripId else none

/-- Embeds `loadCurrentTripId`: `localStorage.getItem` returns the stored
string or `null`. -/
def loadCurrentTripId (slot : Option String) : Option String := slot

/-! ## Geocoding gateway (`src/src/utils/geocoding.ts`, geocoding section) -/

/-- One entry of the Nominatim response array, with its numeric fields at the
values `parseFloat` yields on them. -/
structure NominatimResult where
  lat : ℚ
  lon : ℚ
  display_name : String

/-- Outcome of the injected `fetch` boundary: either the request (or reading
its body) rejects with some message, or a response arrives with its `ok`
flag, `statusText`, and parsed JSON body. -/
inductive FetchOutcome where
  | networkFailure (msg : String)
  | response (ok : Bool) (statusText : String) (body : List NominatimResult)

/-- Environment model of the whitespace class used by JS
`String.prototype.trim` (space, tab, and line terminators). -/
def isJsWhitespace (c : Char) : Bool :=
  c = Char.ofNat 32 || c = Char.ofNat 9 || c = Char.ofNat 10 ||
    c = Char.ofNat 11 || c = Char.ofNat 12 || c = Char.ofNat 13

/-- Environment model of `String.prototype.trim`: drop leading and trailing
whitespace. -/
def jsTrim (s : String) : String :=
  String.mk (((s.data.dropWhile isJsWhitespace).reverse.dropWhile isJsWhitespace).reverse)

/-- Embeds `geocodeAddress` with the `fetch` outcome injected.  The blank-input
check (`!address || address.trim() === ''`, equivalent to `address.trim() ===
''` since `''.trim() === ''`) throws before the `try` block, so its message is
not wrapped; every error thrown inside the `try` — the non-ok response's
`Geocoding failed: <statusText>`, the empty-result `Address not found...`, and
a rejected `fetch` — is re-thrown by the `catch` block wrapped as
`Geocoding error: <message>`.  The enforced rate-limit delay suspends the call
but does not change its result. -/
def geocodeAddress (address : String) (outcome : FetchOutcome) : Except String Location :=
  if jsTrim address = "" then .error "Address cannot be empty"
  else
    match outcome with
    | .networkFailure msg => .error ("Geocoding error: " ++ msg)
    | .response ok statusText body =>
        if !ok then .error ("Geocoding error: " ++ ("Geocoding failed: " ++ statusText))
        else
          match body with
          | [] => .error ("Geocoding error: " ++
              "Address not found. Please try a different address format.")
          | r :: _ => .ok ⟨r.lat, r.lon, r.display_name⟩

/-- The three failure conditions of the gateway. -/
inductive GeoErrorKind where
  | emptyAddress
  | notFound
  | transport
deriving DecidableEq, Repr

/-- A caller-side decision procedure on the thrown message, recovering which
failure condition produced it. -/
def classifyGeoError (msg : String) : GeoErrorKind :=
  if msg = "Address cannot be empty" then .emptyAddress
  else if msg = "Geocoding error: Address not found. Please try a different address format."
    then .notFound
  else .transport

/-! ## Rate limiter (`waitForRateLimit`) as an event-loop model

JS runs callers single-threaded and cooperatively: a call to
`waitForRateLimit` runs synchronously up to its `setTimeout` suspension, and
its continuation (`lastRequestTime = Date.now()`, after which the caller's
outbound request starts) runs when the timer fires.  The model keeps the
module-level `lastRequestTime`, a pending-event list (caller arrivals and
armed timers), and the times at which outbound requests are issued.  Events
are processed in time order; at equal times, in queue order. -/

/-- A pending event: a caller reaching `waitForRateLimit` at `time`, or a
timer armed by a waiting caller, due at `due`. -/
inductive RLTask where
  | arrival (time : ℕ) (caller : ℕ)
  | timer (due : ℕ) (caller : ℕ)

/-- Scheduled time of a pending event. -/
def RLTask.time : RLTask → ℕ
  | .arrival t _ => t
  | .timer t _ => t

/-- Event-loop state: the module-level `lastRequestTime` (initially `0`),
the pending events, and the issued requests as `(time, caller)` pairs. -/
structure RLState where
  lastRequestTime : ℕ
  pending : List RLTask
  requests : List (ℕ × ℕ)

/-- Pick the earliest pending event (first in queue order among ties),
returning it and the remaining queue. -/
def pickNext : List RLTask → Option (RLTask × List RLTask)
  | [] => none
  | t :: rest =>
      match pickNext rest with
      | none => some (t, [])
      | some (u, rest2) =>
          if t.time ≤ u.time then some (t, rest) else some (u, t :: rest2)

/-- One event-loop step.  An arriving caller runs the body of
`waitForRateLimit`: with `timeSinceLastRequest < MIN_REQUEST_INTERVAL` (1000)
it arms a timer for the remainder and suspends; otherwise it sets
`lastRequestTime = Date.now()` and its request is issued now.  A firing timer
resumes its caller, which sets `lastRequestTime = Date.now()` and issues its
request now. -/
def rlStep (st : RLState) : RLState :=
  match pickNext st.pending with
  | none => st
  | some (.arrival now c, rest) =>
      let timeSinceLastRequest := now - st.lastRequestTime
      if timeSinceLastRequest < 1000 then
        { st with pending := rest ++ [.timer (now + (1000 - timeSinceLastRequest)) c] }
      else
        { lastRequestTime := now, pending := rest, requests := st.requests ++ [(now, c)] }
  | some (.timer due c, rest) =>
      { lastRequestTime := due, pending := rest, requests := st.requests ++ [(due, c)] }

/-- Run the event loop to quiescence (each caller suspends at most once, so
`2 * |callers| + 1` steps suffice). -/
def rlRun : ℕ → RLState → RLState
  | 0, st => st
  | fuel + 1, st =>
      match pickNext st.pending with
      | none => st
      | some _ => rlRun fuel (rlStep st)

/-- Issued request times for a schedule of caller arrivals `(time, caller)`,
starting from the module's initial `lastRequestTime = 0`. -/
def runRateLimiter (arrivals : List (ℕ × ℕ)) : List (ℕ × ℕ) :=
  (rlRun (2 * arrivals.length + 1)
    ⟨0, arrivals.map (fun a => .arrival a.1 a.2), []⟩).requests

/-- The rate-limit property the gateway is supposed to enforce: consecutive
outbound requests are at least `MIN_REQUEST_INTERVAL` (1000 ms) apart. -/
def respectsMinInterval (requests : List (ℕ × ℕ)) : Prop :=
  List.Chain' (fun a b => a.1 + 1000 ≤ b.1) requests

/-! ## Sample data (used by concrete witnesses) -/

/-- Sample location. -/
def sampleLocation1 : Location := ⟨1, 2, "Narita Airport"⟩

/-- Sample location. -/
def sampleLocation2 : Location := ⟨3, 4, "Haneda Airport"⟩

/-- Sample flight item. -/
def sampleFlight : ItineraryItem :=
  .flight ⟨"i1", "t1", 100, some 200, some "gate 4"⟩ sampleLocation1 sampleLocation2
    100 200 (some "JAL") none (some "C1")

/-- Sample accommodation item. -/
def sampleAccommodation : ItineraryItem :=
  .accommodation ⟨"i2", "t1", 50, none, none⟩ "Hotel" sampleLocation1 50 300 none

/-- Sample activity item. -/
def sampleActivity : ItineraryItem :=
  .activity ⟨"i3", "t1", 100, none, none⟩ "Tour" sampleLocation2 .tour (some "10:00")

/-- Sample item collection. -/
def sampleItems : List ItineraryItem := [sampleFlight, sampleAccommodation, sampleActivity]

/-- Sample trip exercising all three item variants. -/
def sampleTrip : Trip := ⟨"t1", "Japan 2024", 0, 1000, sampleItems, -5, 7⟩

/-! ## Helper lemmas: the date-rendering bijection -/

lemma charDigit_digitChar {d : ℕ} (hd : d < 10) : charDigit (digitChar d) = d := by
  unfold charDigit digitChar
  interval_cases d <;> decide

lemma decodeNatStr_encodeNatStr (n : ℕ) : decodeNatStr (encodeNatStr n) = n := by
  unfold decodeNatStr encodeNatStr
  show Nat.ofDigits 10 ((((Nat.digits 10 n).map digitChar).reverse).reverse.map charDigit) = n
  rw [List.reverse_reverse, List.map_map]
  have hmap : (Nat.digits 10 n).map (charDigit ∘ digitChar) = List.map id (Nat.digits 10 n) := by
    apply List.map_congr_left
    intro d hd
    exact charDigit_digitChar (Nat.digits_lt_base (by norm_num) hd)
  rw [hmap, List.map_id, Nat.ofDigits_digits]

lemma dateFromString_dateToISOString (t : ℤ) : dateFromString (dateToISOString t) = t := by
  unfold dateFromString dateToISOString
  by_cases ht : t < 0
  · rw [if_pos ht]
    have hdata : (("-" : String) ++ encodeNatStr t.natAbs).data
        = Char.ofNat 45 :: (encodeNatStr t.natAbs).data := rfl
    rw [hdata]
    simp only [List.head?_cons, List.tail_cons, eq_self_iff_true, if_true]
    have : String.mk (encodeNatStr t.natAbs).data = encodeNatStr t.natAbs := rfl
    rw [this, decodeNatStr_encodeNatStr]
    omega
  · rw [if_neg ht]
    have hdata : (("+" : String) ++ encodeNatStr t.natAbs).data
        = Char.ofNat 43 :: (encodeNatStr t.natAbs).data := rfl
    rw [hdata]
    simp only [List.head?_cons, List.tail_cons]
    rw [if_neg (by decide)]
    have : String.mk (encodeNatStr t.natAbs).data = encodeNatStr t.natAbs := rfl
    rw [this, decodeNatStr_encodeNatStr]
    exact Int.natAbs_of_nonneg (not_lt.mp ht)

lemma dateToISOString_ne_empty (t : ℤ) : dateToISOString t ≠ "" := by
  intro h
  have hd := congrArg String.data h
  unfold dateToISOString at hd
  by_cases ht : t < 0
  · rw [if_pos ht] at hd
    exact List.cons_ne_nil _ _ hd
  · rw [if_neg ht] at hd
    exact List.cons_ne_nil _ _ hd

/-! ## Helper lemmas: codec round trip -/

lemma exceptBind_ok {α β : Type} (a : α) (f : α → Except String β) :
    (Except.ok a >>= f) = f a := rfl

lemma exceptPure_eq {α : Type} (a : α) : (pure a : Except String α) = .ok a := rfl

lemma decodeLocation_encodeLocation (l : Location) :
    decodeLocation (some (encodeLocation l)) = .ok l := rfl

lemma decodeActivityType_encodeActivityType (a : ActivityType) :
    decodeActivityType (some (encodeActivityType a)) = .ok a := by
  cases a <;> rfl

lemma asDate_encodeDate (t : ℤ) : asDate (some (encodeDate t)) = .ok t := by
  simp [asDate, encodeDate, dateFromString_dateToISOString]

lemma asOptDate_none : asOptDate none = .ok none := rfl

lemma asOptDate_some_encodeDate (t : ℤ) : asOptDate (some (encodeDate t)) = .ok (some t) := by
  simp [asOptDate, encodeDate, dateToISOString_ne_empty, dateFromString_dateToISOString]

set_option maxHeartbeats 1000000 in
lemma decodeItem_encodeItem (i : ItineraryItem) : decodeItem (encodeItem i) = .ok i := by
  cases i with
  | flight b origin destination departureTime arrivalTime airline flightNumber confirmationNumber =>
      obtain ⟨id, tripId, startDate, endDate, notes⟩ := b
      cases endDate <;> cases notes <;> cases airline <;> cases flightNumber <;>
        cases confirmationNumber <;>
        simp only [decodeItem, encodeItem, encodeBase, optField, optStrField, Option.map_none,
          Option.map_some, jlookup, List.cons_append, List.nil_append, List.append_nil,
          asStr, asOptStr, asDate_encodeDate, asOptDate_none, asOptDate_some_encodeDate,
          decodeLocation_encodeLocation, exceptBind_ok, exceptPure_eq,
          String.reduceEq, reduceIte]
  | accommodation b name location checkIn checkOut bookingReference =>
      obtain ⟨id, tripId, startDate, endDate, notes⟩ := b
      cases endDate <;> cases notes <;> cases bookingReference <;>
        simp only [decodeItem, encodeItem, encodeBase, optField, optStrField, Option.map_none,
          Option.map_some, jlookup, List.cons_append, List.nil_append, List.append_nil,
          asStr, asOptStr, asDate_encodeDate, asOptDate_none, asOptDate_some_encodeDate,
          decodeLocation_encodeLocation, exceptBind_ok, exceptPure_eq,
          String.reduceEq, reduceIte]
  | activity b name location activityType time =>
      obtain ⟨id, tripId, startDate, endDate, notes⟩ := b
      cases endDate <;> cases notes <;> cases time <;>
        simp only [decodeItem, encodeItem, encodeBase, optField, optStrField, Option.map_none,
          Option.map_some, jlookup, List.cons_append, List.nil_append, List.append_nil,
          asStr, asOptStr, asDate_encodeDate, asOptDate_none, asOptDate_some_encodeDate,
          decodeLocation_encodeLocation, decodeActivityType_encodeActivityType,
          exceptBind_ok, exceptPure_eq,
          String.reduceEq, reduceIte]

lemma mapM_map_ok {α β : Type} (dec : α → Except String β) (enc : β → α)
    (l : List β) (h : ∀ x ∈ l, dec (enc x) = .ok x) :
    (l.map enc).mapM dec = Except.ok l := by
  induction l with
  | nil => rfl
  | cons x xs ih =>
      have hx := h x (List.mem_cons_self x xs)
      have hxs := ih (fun y hy => h y (List.mem_cons_of_mem x hy))
      simp only [List.map_cons, List.mapM_cons, hx, hxs, exceptBind_ok, exceptPure_eq]

lemma decodeTrip_encodeTrip (t : Trip) : decodeTrip (encodeTrip t) = .ok t := by
  obtain ⟨id, name, startDate, endDate, items, createdAt, updatedAt⟩ := t
  have hitems : (items.map encodeItem).mapM decodeItem = Except.ok items :=
    mapM_map_ok decodeItem encodeItem items (fun x _ => decodeItem_encodeItem x)
  simp only [decodeTrip, encodeTrip, jlookup, asStr, asDate_encodeDate, hitems,
    exceptBind_ok, exceptPure_eq, String.reduceEq, reduceIte]

lemma deserializeTrips_encodeTrips (trips : List Trip) :
    deserializeTrips (encodeTrips trips) = .ok trips := by
  unfold deserializeTrips encodeTrips
  exact mapM_map_ok decodeTrip encodeTrip trips (fun x _ => decodeTrip_encodeTrip x)

/-! ## Helper lemmas: sorting, stability, partitioning -/

lemma leStart_trans (a b c : ItineraryItem) :
    leStart a b = true → leStart b c = true → leStart a c = true := by
  simp only [leStart, decide_eq_true_eq]
  omega

lemma leStart_total (a b : ItineraryItem) : (leStart a b || leStart b a) = true := by
  simp only [leStart, Bool.or_eq_true, decide_eq_true_eq]
  omega

lemma leDay_trans (a b c : ℤ) : leDay a b = true → leDay b c = true → leDay a c = true := by
  simp only [leDay, decide_eq_true_eq]
  omega

lemma leDay_total (a b : ℤ) : (leDay a b || leDay b a) = true := by
  simp only [leDay, Bool.or_eq_true, decide_eq_true_eq]
  omega

lemma foldl_append_eq_flatMap {α β : Type} (f : α → List β) :
    ∀ (l : List α) (acc : List β),
      l.foldl (fun r x => r ++ f x) acc = acc ++ l.flatMap f := by
  intro l
  induction l with
  | nil => intro acc; simp
  | cons x xs ih =>
      intro acc
      simp only [List.foldl_cons, List.flatMap_cons, ih (acc ++ f x), List.append_assoc]

/-- Stability of the embedded JS sort, in filter form: the elements whose sort
keys are pairwise tied come out of the sort exactly as they went in. -/
lemma filter_mergeSort_of_tied {α : Type} (le : α → α → Bool)
    (htrans : ∀ a b c, le a b = true → le b c = true → le a c = true)
    (htotal : ∀ a b, (le a b || le b a) = true)
    (p : α → Bool) (hp : ∀ a b, p a = true → p b = true → le a b = true)
    (l : List α) : (l.mergeSort le).filter p = l.filter p := by
  have hpair : List.Pairwise (fun a b => le a b = true) (l.filter p) := by
    apply List.pairwise_of_forall_mem_list
    intro a ha b hb
    exact hp a b (List.mem_filter.mp ha).2 (List.mem_filter.mp hb).2
  have hsub : (l.filter p).Sublist (l.mergeSort le) := by
    have h1 : (l.filter p).Sublist l := List.filter_sublist l
    exact List.sublist_mergeSort htrans htotal hpair h1
  have hsub2 : (l.filter p).Sublist ((l.mergeSort le).filter p) := by
    have := List.Sublist.filter p hsub
    rwa [List.filter_filter, List.filter_congr (fun x _ => Bool.and_self (p x))] at this
  have hlen : (l.filter p).length = ((l.mergeSort le).filter p).length :=
    (((List.mergeSort_perm l le).filter p).length_eq).symm
  exact (List.Sublist.eq_of_length hsub2 hlen).symm

lemma flatMap_congr_mem {α γ : Type} (l : List α) (f g : α → List γ)
    (h : ∀ x ∈ l, f x = g x) : l.flatMap f = l.flatMap g := by
  induction l with
  | nil => rfl
  | cons x xs ih =>
      simp only [List.flatMap_cons, h x (List.mem_cons_self x xs),
        ih (fun y hy => h y (List.mem_cons_of_mem x hy))]

/-- Grouping by a key over the distinct keys covers the list exactly once. -/
lemma flatMap_filter_key_perm {α β : Type} [DecidableEq β] (key : α → β) :
    ∀ (ds : List β) (l : List α), ds.Nodup → (∀ x ∈ l, key x ∈ ds) →
      (ds.flatMap fun d => l.filter (fun x => decide (key x = d))).Perm l := by
  intro ds
  induction ds with
  | nil =>
      intro l _ hcov
      cases l with
      | nil => simp
      | cons x xs => exact absurd (hcov x (List.mem_cons_self x xs)) (List.not_mem_nil _)
  | cons d ds ih =>
      intro l hnd hcov
      have hdn : d ∉ ds := (List.nodup_cons.mp hnd).1
      have hnd2 : ds.Nodup := (List.nodup_cons.mp hnd).2
      have hsplit : (l.filter (fun x => decide (key x = d)) ++
          l.filter (fun x => !decide (key x = d))).Perm l :=
        List.filter_append_perm _ l
      have hrest : ∀ d2 ∈ ds, l.filter (fun x => decide (key x = d2)) =
          (l.filter (fun x => !decide (key x = d))).filter (fun x => decide (key x = d2)) := by
        intro d2 hd2
        have hd2d : d2 ≠ d := by
          rintro rfl
          exact hdn hd2
        rw [List.filter_filter]
        apply List.filter_congr
        intro x _
        by_cases hk : key x = d2
        · simp [hk, hd2d]
        · simp [hk]
      have hcov2 : ∀ x ∈ l.filter (fun x => !decide (key x = d)), key x ∈ ds := by
        intro x hx
        have hxl := List.mem_filter.mp hx
        have := hcov x hxl.1
        rcases List.mem_cons.mp this with h | h
        · exfalso
          simp only [Bool.not_eq_true', decide_eq_false_iff_not] at hxl
          exact hxl.2 h
        · exact h
      have hcons : ((d :: ds).flatMap fun d2 => l.filter (fun x => decide (key x = d2)))
          = l.filter (fun x => decide (key x = d)) ++
              (ds.flatMap fun d2 => (l.filter (fun x => !decide (key x = d))).filter
                (fun x => decide (key x = d2))) := by
        rw [List.flatMap_cons, flatMap_congr_mem ds _ _ hrest]
      rw [hcons]
      have hmid := ih (l.filter (fun x => !decide (key x = d))) hnd2 hcov2
      exact (List.Perm.append_left _ hmid).trans hsplit

/-- Length of the route contributions of a list of items. -/
lemma length_flatMap_routeContrib (l : List ItineraryItem) :
    (l.flatMap routeContrib).length = 2 * l.countP isFlight + l.countP isActivity := by
  induction l with
  | nil => rfl
  | cons x xs ih =>
      cases x <;>
        simp only [List.flatMap_cons, List.length_append, ih, List.countP_cons,
          isFlight, isActivity, routeContrib, List.length_cons, List.length_nil] <;>
        simp <;> omega

/-- Length of the overall location contributions of a list of items. -/
lemma length_flatMap_itemLocations (l : List ItineraryItem) :
    (l.flatMap itemLocations).length =
      2 * l.countP isFlight + l.countP isAccommodation + l.countP isActivity := by
  induction l with
  | nil => rfl
  | cons x xs ih =>
      cases x <;>
        simp only [List.flatMap_cons, List.length_append, ih, List.countP_cons,
          isFlight, isAccommodation, isActivity, itemLocations, List.length_cons,
          List.length_nil] <;>
        simp <;> omega

/-! ## Helper lemmas: bounding boxes -/

lemma within_refl (b : LatLngBounds) : b.within b :=
  ⟨le_refl _, le_refl _, le_refl _, le_refl _⟩

lemma within_trans {a b c : LatLngBounds} (h1 : a.within b) (h2 : b.within c) : a.within c :=
  ⟨le_trans h2.1 h1.1, le_trans h1.2.1 h2.2.1, le_trans h2.2.2.1 h1.2.2.1,
    le_trans h1.2.2.2 h2.2.2.2⟩

lemma containsLoc_of_within {b c : LatLngBounds} {l : Location}
    (hw : b.within c) (hc : b.containsLoc l) : c.containsLoc l :=
  ⟨le_trans hw.1 hc.1, le_trans hc.2.1 hw.2.1, le_trans hw.2.2.1 hc.2.2.1,
    le_trans hc.2.2.2 hw.2.2.2⟩

lemma within_extend (b : LatLngBounds) (l : Location) : b.within (b.extend l) :=
  ⟨min_le_left _ _, le_max_left _ _, min_le_left _ _, le_max_left _ _⟩

lemma containsLoc_extend (b : LatLngBounds) (l : Location) : (b.extend l).containsLoc l :=
  ⟨min_le_right _ _, le_max_right _ _, min_le_right _ _, le_max_right _ _⟩

lemma extend_within {b c : LatLngBounds} {l : Location}
    (hw : b.within c) (hc : c.containsLoc l) : (b.extend l).within c :=
  ⟨le_min hw.1 hc.1, max_le hw.2.1 hc.2.1, le_min hw.2.2.1 hc.2.2.1,
    max_le hw.2.2.2 hc.2.2.2⟩

lemma within_foldl_extend (locs : List Location) :
    ∀ b : LatLngBounds, b.within (locs.foldl LatLngBounds.extend b) := by
  induction locs with
  | nil => intro b; exact within_refl b
  | cons l ls ih =>
      intro b
      exact within_trans (within_extend b l) (ih (b.extend l))

lemma containsLoc_foldl_extend (locs : List Location) :
    ∀ (b : LatLngBounds) (l : Location), l ∈ locs →
      (locs.foldl LatLngBounds.extend b).containsLoc l := by
  induction locs with
  | nil => intro b l hl; exact absurd hl (List.not_mem_nil _)
  | cons x xs ih =>
      intro b l hl
      rcases List.mem_cons.mp hl with h | h
      · subst h
        exact containsLoc_of_within (within_foldl_extend xs (b.extend l))
          (containsLoc_extend b l)
      · exact ih (b.extend x) l h

lemma foldl_extend_within (locs : List Location) :
    ∀ (b c : LatLngBounds), b.within c → (∀ l ∈ locs, c.containsLoc l) →
      (locs.foldl LatLngBounds.extend b).within c := by
  induction locs with
  | nil => intro b c hw _; exact hw
  | cons x xs ih =>
      intro b c hw hc
      exact ih (b.extend x) c (extend_within hw (hc x (List.mem_cons_self x xs)))
        (fun l hl => hc l (List.mem_cons_of_mem x hl))

lemma ofCorners_self (l : Location) :
    LatLngBounds.ofCorners l l = ⟨l.lat, l.lat, l.lng, l.lng⟩ := by
  simp [LatLngBounds.ofCorners]

lemma extend_self_of_contains {b : LatLngBounds} {l : Location} (h : b.containsLoc l) :
    b.extend l = b := by
  obtain ⟨h1, h2, h3, h4⟩ := h
  simp [LatLngBounds.extend, min_eq_left h1, max_eq_left h2, min_eq_left h3, max_eq_left h4]

/-! ## Claim theorems -/

/-- C1: for every well-formed trip set `T` (and any prior store state), once
the single `setItem` write is within capacity, `loadTrips` after
`saveTrips T` returns `T` exactly — every timestamp field (trip
startDate/endDate/createdAt/updatedAt, item startDate and optional endDate, a
Flight's departureTime/arrivalTime, an Accommodation's checkIn/checkOut) comes
back as the identical millisecond instant and each item is revived as its
correct variant according to its discriminant tag, since `Trip`/
`ItineraryItem` equality is componentwise. -/
theorem loadTrips_saveTrips_roundtrip (canWrite : StoredText → Bool)
    (slot : Option StoredText) (trips : List Trip)
    (h : canWrite (serializeTrips trips) = true) :
    loadTrips (saveTrips canWrite slot trips).slot = trips := by
  unfold saveTrips
  rw [if_pos h]
  show loadTrips (some (serializeTrips trips)) = trips
  simp only [loadTrips, serializeTrips, deserializeTrips_encodeTrips]

/-- Witness for C1 at a concrete trip set exercising all three item
variants. -/
theorem loadTrips_saveTrips_roundtrip_witness :
    (fun _ => true) (serializeTrips [sampleTrip]) = true ∧
    loadTrips (saveTrips (fun _ => true) none [sampleTrip]).slot = [sampleTrip] :=
  ⟨rfl, loadTrips_saveTrips_roundtrip (fun _ => true) none [sampleTrip] rfl⟩

/-- C2: `loadTrips` is total (never raises): on an absent stored text it
returns the empty collection, on a present but unparsable text it returns the
empty collection, and even on a parsable text the decoder rejects it still
returns the empty collection instead of propagating the error. -/
theorem loadTrips_never_fails :
    loadTrips none = [] ∧
    (∀ s : String, loadTrips (some (.malformed s)) = []) ∧
    (∀ (j : JValue) (e : String), deserializeTrips j = .error e →
      loadTrips (some (.json j)) = []) := by
  refine ⟨rfl, fun s => rfl, fun j e h => ?_⟩
  simp only [loadTrips, h]

/-- Witness for C2 at concrete store contents. -/
theorem loadTrips_never_fails_witness :
    loadTrips none = [] ∧
    loadTrips (some (.malformed "not json")) = [] ∧
    loadTrips (some (.json (.num 5))) = [] :=
  ⟨loadTrips_never_fails.1, loadTrips_never_fails.2.1 "not json",
    loadTrips_never_fails.2.2 (.num 5) "parsed data is not an array" rfl⟩

/-- C3: for every trip set and every prior store state, when the write is out
of capacity `saveTrips` reports the failure (the catch block runs) and leaves
the previously persisted store content unchanged — the store either holds the
complete new serialization or exactly the prior content, never a partial
write. -/
theorem saveTrips_failure_preserves_store (canWrite : StoredText → Bool)
    (slot : Option StoredText) (trips : List Trip)
    (h : canWrite (serializeTrips trips) = false) :
    saveTrips canWrite slot trips = ⟨slot, true⟩ := by
  simp [saveTrips, h]

/-- Witness for C3 at a concrete prior store and failing write. -/
theorem saveTrips_failure_preserves_store_witness :
    saveTrips (fun _ => false) (some (.json (.arr []))) [sampleTrip] =
      ⟨some (.json (.arr [])), true⟩ :=
  saveTrips_failure_preserves_store (fun _ => false) (some (.json (.arr []))) [sampleTrip] rfl

/-- C10 counterexample: the empty string is a non-null string, yet
`saveCurrentTripId("")` takes the falsy `else` branch and removes the key,
so the subsequent load returns `null`, not `""`. -/
theorem saveCurrentTripId_empty_string_counterexample :
    ¬ (loadCurrentTripId (saveCurrentTripId (some "")) = some "") := by
  decide

/-- C10 (amended): for every non-null, non-empty tripId the current-trip-id
scalar round-trips through the store, and `saveCurrentTripId(null)` removes
the stored key so a subsequent load returns `null` (as does
`saveCurrentTripId("")`, since `""` is falsy). -/
theorem currentTripId_roundtrip (s : String) (h : s ≠ "") :
    loadCurrentTripId (saveCurrentTripId (some s)) = some s ∧
    loadCurrentTripId (saveCurrentTripId none) = none := by
  constructor
  · simp [loadCurrentTripId, saveCurrentTripId, strTruthy, h]
  · rfl

/-- Witness for the amended C10 at a concrete trip id. -/
theorem currentTripId_roundtrip_witness :
    loadCurrentTripId (saveCurrentTripId (some "trip-1")) = some "trip-1" ∧
    loadCurrentTripId (saveCurrentTripId none) = none :=
  currentTripId_roundtrip "trip-1" (by decide)

/-- C6: `getAllLocations` yields exactly two locations (origin then
destination) for each flight and exactly one for each accommodation and each
activity, in input item order (the `flatMap` equation), hence its length is
2·(flight count) + (accommodation count) + (activity count). -/
theorem getAllLocations_spec (items : List ItineraryItem) :
    getAllLocations items = items.flatMap itemLocations ∧
    (getAllLocations items).length =
      2 * items.countP isFlight + items.countP isAccommodation + items.countP isActivity := by
  have h : getAllLocations items = items.flatMap itemLocations := by
    unfold getAllLocations
    rw [foldl_append_eq_flatMap itemLocations items []]
    rfl
  exact ⟨h, by rw [h, length_flatMap_itemLocations]⟩

/-- C4: `getRouteLocations` first stably sorts the items ascending by primary
start timestamp (witnessed by a list that is a permutation of the input,
pairwise sorted, and agreeing with the input on every run of tied keys), then
flat-maps the per-item route contribution; no accommodation contributes
anything, and the output length is 2·(flight count) + (activity count). -/
theorem getRouteLocations_spec (items : List ItineraryItem) :
    (∃ s : List ItineraryItem,
        s.Perm items ∧
        List.Pairwise (fun a b => a.startDate ≤ b.startDate) s ∧
        (∀ t : ℤ, s.filter (fun i => decide (i.startDate = t)) =
          items.filter (fun i => decide (i.startDate = t))) ∧
        getRouteLocations items = s.flatMap routeContrib) ∧
    (∀ loc ∈ getRouteLocations items, ∃ i ∈ items,
        loc ∈ routeContrib i ∧ isAccommodation i = false) ∧
    (getRouteLocations items).length =
      2 * items.countP isFlight + items.countP isActivity := by
  have hperm : (items.mergeSort leStart).Perm items := List.mergeSort_perm items leStart
  have hsorted : List.Pairwise (fun a b => a.startDate ≤ b.startDate)
      (items.mergeSort leStart) := by
    have := List.sorted_mergeSort leStart_trans leStart_total items
    exact this.imp (fun hab => by simpa [leStart] using hab)
  have hstable : ∀ t : ℤ, (items.mergeSort leStart).filter
        (fun i => decide (i.startDate = t)) =
      items.filter (fun i => decide (i.startDate = t)) := by
    intro t
    apply filter_mergeSort_of_tied leStart leStart_trans leStart_total
    intro a b ha hb
    simp only [decide_eq_true_eq] at ha hb
    simp [leStart, ha, hb]
  have hroute : getRouteLocations items = (items.mergeSort leStart).flatMap routeContrib := by
    unfold getRouteLocations jsSortByStartDate
    rw [foldl_append_eq_flatMap routeContrib (items.mergeSort leStart) []]
    rfl
  refine ⟨⟨items.mergeSort leStart, hperm, hsorted, hstable, hroute⟩, ?_, ?_⟩
  · intro loc hloc
    rw [hroute] at hloc
    obtain ⟨i, hi, hmem⟩ := List.mem_flatMap.mp hloc
    refine ⟨i, hperm.mem_iff.mp hi, hmem, ?_⟩
    cases i with
    | flight _ _ _ _ _ _ _ _ => rfl
    | accommodation _ _ _ _ _ _ => exact absurd hmem (List.not_mem_nil _)
    | activity _ _ _ _ _ => rfl
  · rw [hroute, length_flatMap_routeContrib,
      hperm.countP_eq isFlight, hperm.countP_eq isActivity]

/-- Witness for C4 at a concrete collection: the route location
`sampleLocation1` comes from a non-accommodation item. -/
theorem getRouteLocations_spec_witness :
    ∃ i ∈ sampleItems, sampleLocation1 ∈ routeContrib i ∧ isAccommodation i = false :=
  (getRouteLocations_spec sampleItems).2.1 sampleLocation1 (by
    simp [getRouteLocations, jsSortByStartDate, List.mergeSort, List.merge, sampleItems,
      sampleFlight, sampleAccommodation, sampleActivity, leStart, routeContrib,
      ItineraryItem.startDate, ItineraryItem.base, sampleLocation1, sampleLocation2])

/-- C8 (the claim fails on the code): with an initial request at t = 10000 ms
and two further callers reaching `waitForRateLimit` at t = 10500 ms and
t = 10600 ms, both read the stale `lastRequestTime = 10000`, both arm timers
due at t = 11000, and both issue their outbound requests at t = 11000 — two
outbound requests 0 ms apart, violating the configured minimum interval of
1000 ms that the limiter's own comment ("wait at least 1 second between
requests") promises. -/
theorem waitForRateLimit_race :
    runRateLimiter [(10000, 0), (10500, 1), (10600, 2)] =
      [(10000, 0), (11000, 1), (11000, 2)] ∧
    ¬ respectsMinInterval (runRateLimiter [(10000, 0), (10500, 1), (10600, 2)]) := by
  have heq : runRateLimiter [(10000, 0), (10500, 1), (10600, 2)] =
      [(10000, 0), (11000, 1), (11000, 2)] := by decide
  refine ⟨heq, ?_⟩
  intro h
  unfold respectsMinInterval at h
  rw [heq] at h
  have h2 := (List.chain'_cons.mp (List.chain'_cons.mp h).2).1
  omega

/-- C7: `calculateTripBounds` is absent exactly when `getAllLocations` is
empty; otherwise it is the minimal rectangle covering every yielded location
(it contains them all and sits inside every rectangle that does), and on a
single yielded location `l` it is the degenerate box with min = max = `l`. -/
theorem calculateTripBounds_spec (items : List ItineraryItem) :
    (calculateTripBounds items = none ↔ getAllLocations items = []) ∧
    (∀ b, calculateTripBounds items = some b →
      (∀ l ∈ getAllLocations items, b.containsLoc l) ∧
      (∀ c : LatLngBounds, (∀ l ∈ getAllLocations items, c.containsLoc l) → b.within c)) ∧
    (∀ l, getAllLocations items = [l] →
      calculateTripBounds items = some ⟨l.lat, l.lat, l.lng, l.lng⟩) := by
  refine ⟨?_, ?_, ?_⟩
  · cases h : getAllLocations items with
    | nil => simp [calculateTripBounds, h]
    | cons l0 rest => simp [calculateTripBounds, h]
  · intro b hb
    cases h : getAllLocations items with
    | nil =>
        rw [calculateTripBounds, h] at hb
        cases hb
    | cons l0 rest =>
        rw [calculateTripBounds, h] at hb
        have hb2 : (l0 :: rest).foldl LatLngBounds.extend (LatLngBounds.ofCorners l0 l0) = b :=
          Option.some.inj hb
        constructor
        · intro l hl
          rw [← hb2]
          exact containsLoc_foldl_extend (l0 :: rest) _ l hl
        · intro c hc
          rw [← hb2]
          apply foldl_extend_within
          · have hc0 := hc l0 (List.mem_cons_self _ _)
            rw [ofCorners_self]
            exact ⟨hc0.1, hc0.2.1, hc0.2.2.1, hc0.2.2.2⟩
          · intro l hl
            exact hc l hl
  · intro l hl
    rw [calculateTripBounds, hl]
    show some ((LatLngBounds.ofCorners l l).extend l) = _
    rw [ofCorners_self,
      extend_self_of_contains ⟨le_refl _, le_refl _, le_refl _, le_refl _⟩]

/-- Witness for C7: a single activity yields a single location and a
degenerate box. -/
theorem calculateTripBounds_spec_witness :
    calculateTripBounds [sampleActivity] =
      some ⟨sampleLocation2.lat, sampleLocation2.lat,
        sampleLocation2.lng, sampleLocation2.lng⟩ :=
  (calculateTripBounds_spec [sampleActivity]).2.2 sampleLocation2 (by decide)

/-- The wrapped transport message produced from a non-success response never
collides with the not-found message (they differ at the 18th character). -/
lemma transport_msg_ne_notFound (st : String) :
    ("Geocoding error: " ++ ("Geocoding failed: " ++ st)) ≠
      "Geocoding error: Address not found. Please try a different address format." := by
  intro h
  have e1 : ("Geocoding error: " ++ ("Geocoding failed: " ++ st)).data[17]? = some 'G' := rfl
  have e2 : ("Geocoding error: Address not found. Please try a different address format."
      : String).data[17]? = some 'A' := rfl
  rw [h] at e1
  rw [e1] at e2
  exact absurd e2 (by decide)

/-- A wrapped message never collides with the unwrapped empty-address message
(they differ at the first character). -/
lemma wrapped_msg_ne_empty (m : String) :
    ("Geocoding error: " ++ m) ≠ "Address cannot be empty" := by
  intro h
  have e1 : ("Geocoding error: " ++ m).data[0]? = some 'G' := rfl
  have e2 : ("Address cannot be empty" : String).data[0]? = some 'A' := rfl
  rw [h] at e1
  rw [e1] at e2
  exact absurd e2 (by decide)

/-- A wrapped network-failure message equals the not-found message only when
the network layer's own message is exactly the not-found sentence. -/
lemma wrapped_msg_eq_notFound (m : String)
    (h : ("Geocoding error: " ++ m) =
      "Geocoding error: Address not found. Please try a different address format.") :
    m = "Address not found. Please try a different address format." := by
  have hd := congrArg String.data h
  have hsplit : ("Geocoding error: Address not found. Please try a different address format."
      : String).data = ("Geocoding error: " : String).data ++
        ("Address not found. Please try a different address format." : String).data := rfl
  rw [hsplit] at hd
  exact String.ext (List.append_cancel_left hd)

/-- C9: `geocodeAddress` fails with the unwrapped empty-address message on
blank input, the wrapped not-found message when the provider returns no match,
and a wrapped transport message for a non-success response or a rejected
fetch; the caller can classify each produced message back to its condition
(for a raw network-failure message, provided the transport layer's text is
not itself the not-found sentence). -/
theorem geocodeAddress_error_conditions :
    (∀ (address : String) (out : FetchOutcome), jsTrim address = "" →
        geocodeAddress address out = .error "Address cannot be empty") ∧
    (∀ address statusText : String, jsTrim address ≠ "" →
        geocodeAddress address (.response true statusText []) =
          .error "Geocoding error: Address not found. Please try a different address format.") ∧
    (∀ (address statusText : String) (body : List NominatimResult), jsTrim address ≠ "" →
        geocodeAddress address (.response false statusText body) =
          .error ("Geocoding error: " ++ ("Geocoding failed: " ++ statusText))) ∧
    (∀ address m : String, jsTrim address ≠ "" →
        geocodeAddress address (.networkFailure m) = .error ("Geocoding error: " ++ m)) ∧
    classifyGeoError "Address cannot be empty" = .emptyAddress ∧
    classifyGeoError
      "Geocoding error: Address not found. Please try a different address format." = .notFound ∧
    (∀ statusText : String,
        classifyGeoError ("Geocoding error: " ++ ("Geocoding failed: " ++ statusText)) =
          .transport) ∧
    (∀ m : String, m ≠ "Address not found. Please try a different address format." →
        classifyGeoError ("Geocoding error: " ++ m) = .transport) := by
  refine ⟨?_, ?_, ?_, ?_, ?_, ?_, ?_, ?_⟩
  · intro address out h
    simp [geocodeAddress, h]
  · intro address statusText h
    simp [geocodeAddress, h]
  · intro address statusText body h
    simp [geocodeAddress, h]
  · intro address m h
    simp [geocodeAddress, h]
  · rfl
  · rw [classifyGeoError, if_neg (by decide), if_pos rfl]
  · intro statusText
    rw [classifyGeoError, if_neg (wrapped_msg_ne_empty _),
      if_neg (transport_msg_ne_notFound statusText)]
  · intro m hm
    rw [classifyGeoError, if_neg (wrapped_msg_ne_empty _),
      if_neg (fun hcol => hm (wrapped_msg_eq_notFound m hcol))]

/-- Witness for C9 at concrete inputs: a blank address, a no-match response
for a real address, and a classified wrapped network failure. -/
theorem geocodeAddress_error_conditions_witness :
    geocodeAddress " " (.networkFailure "timeout") = .error "Address cannot be empty" ∧
    geocodeAddress "Tokyo" (.response true "OK" []) =
      .error "Geocoding error: Address not found. Please try a different address format." ∧
    classifyGeoError ("Geocoding error: " ++ "connection reset") = .transport :=
  ⟨geocodeAddress_error_conditions.1 " " (.networkFailure "timeout") (by decide),
    geocodeAddress_error_conditions.2.1 "Tokyo" "OK" (by decide),
    geocodeAddress_error_conditions.2.2.2.2.2.2.2 "connection reset" (by decide)⟩

/-- Pointwise-permutation congruence for `flatMap`. -/
lemma flatMap_perm_pointwise {α β : Type} (ds : List α) (f g : α → List β)
    (h : ∀ d ∈ ds, (f d).Perm (g d)) : (ds.flatMap f).Perm (ds.flatMap g) := by
  induction ds with
  | nil => simp
  | cons d ds ih =>
      simp only [List.flatMap_cons]
      exact (h d (List.mem_cons_self d ds)).append
        (ih (fun d2 hd2 => h d2 (List.mem_cons_of_mem d hd2)))

/-- C5: `groupByDay` partitions the input without loss or duplication (the
flattened group values are a permutation of the input), lists its distinct
days in strictly ascending order, keys every group correctly, sorts each
group by start time ascending, and is stable within each day: every run of
equal start times inside a group appears exactly as it does (restricted to
that day) in the original insertion order. -/
theorem groupByDay_spec (tz : ℤ) (items : List ItineraryItem) :
    (((groupByDay tz items).map Prod.snd).flatten).Perm items ∧
    List.Pairwise (fun p q => p.1 < q.1) (groupByDay tz items) ∧
    (∀ p ∈ groupByDay tz items, ∀ i ∈ p.2, dayOf tz i.startDate = p.1) ∧
    (∀ p ∈ groupByDay tz items, List.Pairwise (fun a b => a.startDate ≤ b.startDate) p.2) ∧
    (∀ p ∈ groupByDay tz items, ∀ t : ℤ,
      p.2.filter (fun i => decide (i.startDate = t)) =
        items.filter (fun i => decide (i.startDate = t) &&
          decide (dayOf tz i.startDate = p.1))) := by
  have hgrp : groupByDay tz items =
      (((items.map fun i => dayOf tz i.startDate).dedup).mergeSort leDay).map (fun d =>
        (d, (items.filter (fun i => decide (dayOf tz i.startDate = d))).mergeSort leStart)) :=
    rfl
  have hdnodup : (((items.map fun i => dayOf tz i.startDate).dedup).mergeSort leDay).Nodup :=
    (List.mergeSort_perm _ leDay).symm.nodup (List.nodup_dedup _)
  have hdsorted : List.Pairwise (fun a b : ℤ => a ≤ b)
      (((items.map fun i => dayOf tz i.startDate).dedup).mergeSort leDay) :=
    (List.sorted_mergeSort leDay_trans leDay_total _).imp
      (fun hab => by simpa [leDay] using hab)
  have hdlt : List.Pairwise (fun a b : ℤ => a < b)
      (((items.map fun i => dayOf tz i.startDate).dedup).mergeSort leDay) := by
    have hne : List.Pairwise (fun a b : ℤ => a ≠ b)
        (((items.map fun i => dayOf tz i.startDate).dedup).mergeSort leDay) := hdnodup
    exact (hdsorted.and hne).imp (fun hab => lt_of_le_of_ne hab.1 hab.2)
  have hcov : ∀ i ∈ items, dayOf tz i.startDate ∈
      (((items.map fun i => dayOf tz i.startDate).dedup).mergeSort leDay) := by
    intro i hi
    rw [List.mem_mergeSort, List.mem_dedup]
    exact List.mem_map_of_mem _ hi
  have hgroup_perm : ∀ d : ℤ,
      ((items.filter (fun i => decide (dayOf tz i.startDate = d))).mergeSort leStart).Perm
        (items.filter (fun i => decide (dayOf tz i.startDate = d))) :=
    fun d => List.mergeSort_perm _ leStart
  refine ⟨?_, ?_, ?_, ?_, ?_⟩
  · rw [hgrp, List.map_map]
    have hmapsnd : (Prod.snd ∘ fun d : ℤ =>
        (d, (items.filter (fun i => decide (dayOf tz i.startDate = d))).mergeSort leStart)) =
        fun d : ℤ =>
          (items.filter (fun i => decide (dayOf tz i.startDate = d))).mergeSort leStart := rfl
    rw [hmapsnd, ← List.flatMap_def]
    have h1 := flatMap_perm_pointwise
      (((items.map fun i => dayOf tz i.startDate).dedup).mergeSort leDay)
      (fun d => (items.filter (fun i => decide (dayOf tz i.startDate = d))).mergeSort leStart)
      (fun d => items.filter (fun i => decide (dayOf tz i.startDate = d)))
      (fun d _ => hgroup_perm d)
    exact h1.trans (flatMap_filter_key_perm (fun i => dayOf tz i.startDate) _ items
      hdnodup hcov)
  · rw [hgrp]
    exact List.pairwise_map.mpr hdlt
  · intro p hp i hi
    rw [hgrp] at hp
    obtain ⟨d, _, rfl⟩ := List.mem_map.mp hp
    have hi2 : i ∈ items.filter (fun i => decide (dayOf tz i.startDate = d)) :=
      List.mem_mergeSort.mp hi
    have := (List.mem_filter.mp hi2).2
    simpa using this
  · intro p hp
    rw [hgrp] at hp
    obtain ⟨d, _, rfl⟩ := List.mem_map.mp hp
    exact (List.sorted_mergeSort leStart_trans leStart_total _).imp
      (fun hab => by simpa [leStart] using hab)
  · intro p hp t
    rw [hgrp] at hp
    obtain ⟨d, _, rfl⟩ := List.mem_map.mp hp
    show ((items.filter (fun i => decide (dayOf tz i.startDate = d))).mergeSort
        leStart).filter (fun i => decide (i.startDate = t)) = _
    rw [filter_mergeSort_of_tied leStart leStart_trans leStart_total _
      (fun a b ha hb => by
        simp only [decide_eq_true_eq] at ha hb
        simp [leStart, ha, hb]),
      List.filter_filter]

/-- Witness for C5 at a concrete collection and group. -/
theorem groupByDay_spec_witness :
    dayOf 0 (ItineraryItem.startDate sampleAccommodation) =
      (0, [sampleAccommodation, sampleFlight, sampleActivity]).1 :=
  (groupByDay_spec 0 sampleItems).2.2.1
    (0, [sampleAccommodation, sampleFlight, sampleActivity])
    (by
      simp [groupByDay, List.mergeSort, List.merge, dayOf, leDay, leStart, sampleItems,
        sampleFlight, sampleAccommodation, sampleActivity, ItineraryItem.startDate,
        ItineraryItem.base, List.dedup, List.pwFilter, Int.fdiv])
    sampleAccommodation (by simp)

end TripVis
